import Mathlib

/-!
Verification of the qiankun sandbox subsystem.

This file gives a shallow embedding of the isolation-sandbox components of
the repository and proves properties of the embedded definitions:

- the legacy (diff-based) sandbox: its proxy set and get and defineProperty
  traps, its bookkeeping maps, and its active and inactive transitions;
- the lifecycle orchestrator createSandboxContainer with mount and unmount;
- the shared prototype patch machinery of the dynamic-append patcher,
  together with the per-module activation counters (calcAppCount and
  isAllAppsUnmounted);
- the window event-listener patcher (addCacheListener, removeCacheListener,
  patch and its free function), including the exact iteration semantics of
  Array.prototype.forEach over an array that is spliced during iteration;
- the CSS scoping engine (ScopedCSS.ruleStyle, ScopedCSS.rewrite and
  ScopedCSS.process), with the regular expressions of ruleStyle implemented
  as explicit character-level matchers.

Modelling conventions: property keys are strings; JavaScript values are an
inductive JSVal with a distinguished undefined value; the shared global
object is a function from keys to Option JSVal, where none means the key is
not an own property; JS Map objects are association lists in insertion
order (Map.set keeps the position of an existing key); machine numbers that
the code can in principle drive negative are modelled as Int.
-/

namespace Qiankun

/-- Property keys of the shared global object. The sandbox only treats
string keys specially (the symbol check of setWindowProp is vacuous in the
model). -/
abbrev Key := String

/-- JavaScript values, with a distinguished undefined. -/
inductive JSVal where
  | undef
  | num (n : Int)
  | str (s : String)
  | boolean (b : Bool)
deriving DecidableEq, Repr

/-- The shared global object: none means the key is not an own property. -/
abbrev Global := Key → Option JSVal

/-- Plain assignment global[k] = v: creates or updates the own property. -/
def globalSet (g : Global) (k : Key) (v : JSVal) : Global :=
  fun k2 => if k2 = k then some v else g k2

/-- delete global[k]. -/
def globalErase (g : Global) (k : Key) : Global :=
  fun k2 => if k2 = k then none else g k2

/-- rawWindow.hasOwnProperty(p). -/
def globalHasOwnProperty (g : Global) (k : Key) : Bool :=
  (g k).isSome

/-- Reading global[k] in JS yields undefined when the key is absent. -/
def globalRead (g : Global) (k : Key) : JSVal :=
  (g k).getD JSVal.undef

/-! JS Map objects as association lists in insertion order. -/

/-- Map.prototype.has. -/
def mapHas {β : Type} : List (Key × β) → Key → Bool
  | [], _ => false
  | e :: m, k => if e.1 = k then true else mapHas m k

/-- Map.prototype.get, as an Option. -/
def mapGet {β : Type} : List (Key × β) → Key → Option β
  | [], _ => none
  | e :: m, k => if e.1 = k then some e.2 else mapGet m k

/-- Map.prototype.set: updates the value in place for an existing key
(keeping its insertion position), otherwise appends the new entry. -/
def mapSet {β : Type} (m : List (Key × β)) (k : Key) (v : β) : List (Key × β) :=
  match m with
  | [] => [(k, v)]
  | e :: rest => if e.1 = k then (k, v) :: rest else e :: mapSet rest k v

/-- Keys of an association list are pairwise distinct, as they are for a JS
Map by construction. -/
def keysUnique {β : Type} : List (Key × β) → Prop
  | [] => True
  | e :: rest => mapHas rest e.1 = false ∧ keysUnique rest

/-! ## Legacy sandbox (src/unnamed/part_003, class LegacySandbox) -/

/-- State of one LegacySandbox instance together with the shared global it
mutates. Field names follow the source class. -/
structure LegacySandbox where
  name : String
  globalContext : Global
  addedPropsMapInSandbox : List (Key × JSVal)
  modifiedPropsOriginalValueMapInSandbox : List (Key × JSVal)
  currentUpdatedPropsValueMap : List (Key × JSVal)
  sandboxRunning : Bool
  latestSetProp : Option Key

/-- isPropConfigurable: the model represents only plain configurable data
properties, so the descriptor check always succeeds (a missing descriptor
also yields true in the source). -/
def isPropConfigurable (_g : Global) (_p : Key) : Bool :=
  true

/-- The action of setWindowProp on the shared global: deletes the key when
asked to delete an undefined value, otherwise (for a configurable,
non-symbol key) redefines the property as a plain writable value. -/
def setWindowPropG (g : Global) (p : Key) (value : JSVal) (toDelete : Bool) : Global :=
  if value = JSVal.undef ∧ toDelete then
    globalErase g p
  else if isPropConfigurable g p then
    globalSet g p value
  else
    g

/-- setWindowProp: the source method mutates only this.globalContext. -/
def setWindowProp (s : LegacySandbox) (p : Key) (value : JSVal) (toDelete : Bool) :
    LegacySandbox :=
  { s with globalContext := setWindowPropG s.globalContext p value toDelete }

/-- The shared body of the proxy set trap. Records a fresh key in
addedPropsMapInSandbox, records the first-seen original value of an existing
key in modifiedPropsOriginalValueMapInSandbox, always updates
currentUpdatedPropsValueMap, optionally syncs the write onto the raw window,
and returns true even when the sandbox is not running. -/
def setTrap (s : LegacySandbox) (p : Key) (value : JSVal) (originalValue : JSVal)
    (sync2Window : Bool) : LegacySandbox × Bool :=
  if s.sandboxRunning then
    let s1 :=
      if ¬ globalHasOwnProperty s.globalContext p then
        { s with addedPropsMapInSandbox := mapSet s.addedPropsMapInSandbox p value }
      else if ¬ mapHas s.modifiedPropsOriginalValueMapInSandbox p then
        { s with modifiedPropsOriginalValueMapInSandbox :=
            mapSet s.modifiedPropsOriginalValueMapInSandbox p originalValue }
      else s
    let s2 :=
      { s1 with currentUpdatedPropsValueMap := mapSet s1.currentUpdatedPropsValueMap p value }
    let s3 :=
      if sync2Window then { s2 with globalContext := globalSet s2.globalContext p value }
      else s2
    ({ s3 with latestSetProp := some p }, true)
  else
    (s, true)

/-- The proxy set handler: reads the original value from the raw window and
delegates to setTrap with sync2Window = true. -/
def proxySet (s : LegacySandbox) (p : Key) (value : JSVal) : LegacySandbox × Bool :=
  let originalValue := globalRead s.globalContext p
  setTrap s p value originalValue true

/-- The proxy defineProperty handler, for a plain data descriptor carrying
value v: captures the original value, performs Reflect.defineProperty on the
raw window, reads the resulting value back and delegates to setTrap with
sync2Window = false. -/
def proxyDefineProperty (s : LegacySandbox) (p : Key) (v : JSVal) :
    LegacySandbox × Bool :=
  let originalValue := globalRead s.globalContext p
  let s1 := { s with globalContext := globalSet s.globalContext p v }
  let value := globalRead s1.globalContext p
  setTrap s1 p value originalValue false

/-- Result of the proxy get trap: either the proxy object itself or a value
read from the raw window. -/
inductive GetResult where
  | proxySelf
  | value (v : JSVal)
deriving DecidableEq, Repr

/-- rebindTarget2Fn: rebinds unbound callable members to the raw window.
The modelled value domain JSVal contains no callables, so the callable
branch never fires and the value is returned unchanged. -/
def rebindTarget2Fn (_target : Global) (v : JSVal) : JSVal :=
  v

/-- The proxy get trap: the four self-referential keys resolve to the proxy
itself, every other key is read from the raw window and passed through
rebindTarget2Fn. -/
def proxyGet (s : LegacySandbox) (p : Key) : GetResult :=
  if p = "top" ∨ p = "parent" ∨ p = "window" ∨ p = "self" then
    GetResult.proxySelf
  else
    GetResult.value (rebindTarget2Fn s.globalContext (globalRead s.globalContext p))

/-- active: when the sandbox was not running, replays
currentUpdatedPropsValueMap onto the raw window, then marks it running. -/
def LegacySandbox.active (s : LegacySandbox) : LegacySandbox :=
  let s1 :=
    if ¬ s.sandboxRunning then
      s.currentUpdatedPropsValueMap.foldl (fun acc e => setWindowProp acc e.1 e.2 false) s
    else s
  { s1 with sandboxRunning := true }

/-- inactive: restores every modified key to its recorded original value,
deletes every added key from the raw window, then marks the sandbox not
running. -/
def LegacySandbox.inactive (s : LegacySandbox) : LegacySandbox :=
  let s1 := s.modifiedPropsOriginalValueMapInSandbox.foldl
      (fun acc e => setWindowProp acc e.1 e.2 false) s
  let s2 := s1.addedPropsMapInSandbox.foldl
      (fun acc e => setWindowProp acc e.1 JSVal.undef true) s1
  { s2 with sandboxRunning := false }

/-- The constructor state of a LegacySandbox over a given shared global:
empty bookkeeping maps, sandboxRunning = true. -/
def LegacySandbox.init (name : String) (g : Global) : LegacySandbox :=
  { name := name
    globalContext := g
    addedPropsMapInSandbox := []
    modifiedPropsOriginalValueMapInSandbox := []
    currentUpdatedPropsValueMap := []
    sandboxRunning := true
    latestSetProp := none }

/-- A write operation arriving at the proxy: either a plain assignment
(the set trap) or a property definition (the defineProperty trap) with a
plain data descriptor. -/
inductive SandboxOp where
  | setProp (p : Key) (v : JSVal)
  | defineProp (p : Key) (v : JSVal)
deriving DecidableEq, Repr

/-- Execute one proxy write. -/
def applyOp (s : LegacySandbox) (op : SandboxOp) : LegacySandbox :=
  match op with
  | SandboxOp.setProp p v => (proxySet s p v).1
  | SandboxOp.defineProp p v => (proxyDefineProperty s p v).1

/-- Execute a sequence of proxy writes. -/
def applyOps (s : LegacySandbox) (ops : List SandboxOp) : LegacySandbox :=
  ops.foldl applyOp s

/-- A defineProperty write is safe when its key is already an own property
of the shared global; plain assignments are always safe. -/
def opSafe (s : LegacySandbox) : SandboxOp → Bool
  | SandboxOp.setProp _ _ => true
  | SandboxOp.defineProp p _ => globalHasOwnProperty s.globalContext p

/-- Checks that every defineProperty write in the sequence targets a key
that is an own property of the shared global at the moment of the write. -/
def safeOps (s : LegacySandbox) : List SandboxOp → Bool
  | [] => true
  | op :: rest => opSafe s op && safeOps (applyOp s op) rest

/-! ## Lifecycle orchestrator (src/src/sandbox/index.ts, createSandboxContainer)

Freers and rebuilders are capability pairs: a freer reverses a patch and
returns the rebuilder that can restore what it captured. The model labels
each patch with a numeric id; calling the freer for patch i yields the
rebuilder for patch i. The trace records every externally visible action in
order. -/

/-- Externally visible actions of the orchestrator. -/
inductive LifecycleEvent where
  | activate
  | inactivate
  | installBootstrapPatch (id : Nat)
  | installMountingPatch (id : Nat)
  | freePatch (id : Nat)
  | rebuild (id : Nat)
deriving DecidableEq, Repr

/-- State captured by the closure returned from createSandboxContainer. -/
structure SandboxContainer where
  bootstrappingFreers : List Nat
  mountingFreers : List Nat
  sideEffectsRebuilders : List Nat
  trace : List LifecycleEvent
deriving DecidableEq, Repr

/-- createSandboxContainer: installs the bootstrap patches once; mounting
freers and rebuilders start empty. -/
def createSandboxContainer (bootstrapPatches : List Nat) : SandboxContainer :=
  { bootstrappingFreers := bootstrapPatches
    mountingFreers := []
    sideEffectsRebuilders := []
    trace := bootstrapPatches.map LifecycleEvent.installBootstrapPatch }

/-- Invoke one rebuilder. -/
def runRebuilder (c : SandboxContainer) (id : Nat) : SandboxContainer :=
  { c with trace := c.trace ++ [LifecycleEvent.rebuild id] }

/-- mount(): activate the sandbox, split the captured rebuilders positionally
at the number of bootstrapping freers, replay the bootstrap-time slice,
install the mount-time patches fresh, replay the mount-time slice, and clear
the consumed rebuilder list. mountingPatches is the patch list produced by
patchAtMounting for the sandbox kind. -/
def SandboxContainer.mount (c : SandboxContainer) (mountingPatches : List Nat) :
    SandboxContainer :=
  let c1 := { c with trace := c.trace ++ [LifecycleEvent.activate] }
  let sideEffectsRebuildersAtBootstrapping :=
    c1.sideEffectsRebuilders.take c1.bootstrappingFreers.length
  let sideEffectsRebuildersAtMounting :=
    c1.sideEffectsRebuilders.drop c1.bootstrappingFreers.length
  let c2 := sideEffectsRebuildersAtBootstrapping.foldl runRebuilder c1
  let c3 := { c2 with
    mountingFreers := mountingPatches
    trace := c2.trace ++ mountingPatches.map LifecycleEvent.installMountingPatch }
  let c4 := sideEffectsRebuildersAtMounting.foldl runRebuilder c3
  { c4 with sideEffectsRebuilders := [] }

/-- unmount(): run every freer, bootstrapping ones first then mounting ones,
collecting the returned rebuilders in the same order, then deactivate the
sandbox. -/
def SandboxContainer.unmount (c : SandboxContainer) : SandboxContainer :=
  let freers := c.bootstrappingFreers ++ c.mountingFreers
  { c with
    sideEffectsRebuilders := freers
    trace := c.trace ++ freers.map LifecycleEvent.freePatch ++ [LifecycleEvent.inactivate] }

/-! ## Activation counters (forStrictSandbox.ts, calcAppCount and
isAllAppsUnmounted). The counts are modelled as Int so that non-negativity
is a real property of the guarded decrement. -/

inductive CalcType where
  | increase
  | decrease
deriving DecidableEq, Repr

inductive PatchStatus where
  | bootstrapping
  | mounting
deriving DecidableEq, Repr

structure AppCount where
  bootstrappingPatchCount : Int
  mountingPatchCount : Int
deriving DecidableEq, Repr

abbrev AppsCounterMap := List (String × AppCount)

/-- appsCounterMap.get(appName) with the default fresh pair. -/
def getAppCount (m : AppsCounterMap) (appName : String) : AppCount :=
  (mapGet m appName).getD { bootstrappingPatchCount := 0, mountingPatchCount := 0 }

/-- calcAppCount: increase adds one to the selected count; decrease
subtracts one only when the count is positive (a bootstrap patch is
installed once but its freer can run many times). -/
def calcAppCount (m : AppsCounterMap) (appName : String) (calcType : CalcType)
    (status : PatchStatus) : AppsCounterMap :=
  let appCount := getAppCount m appName
  let appCount :=
    match calcType, status with
    | CalcType.increase, PatchStatus.bootstrapping =>
      { appCount with bootstrappingPatchCount := appCount.bootstrappingPatchCount + 1 }
    | CalcType.increase, PatchStatus.mounting =>
      { appCount with mountingPatchCount := appCount.mountingPatchCount + 1 }
    | CalcType.decrease, PatchStatus.bootstrapping =>
      if appCount.bootstrappingPatchCount > 0 then
        { appCount with bootstrappingPatchCount := appCount.bootstrappingPatchCount - 1 }
      else appCount
    | CalcType.decrease, PatchStatus.mounting =>
      if appCount.mountingPatchCount > 0 then
        { appCount with mountingPatchCount := appCount.mountingPatchCount - 1 }
      else appCount
  mapSet m appName appCount

/-- isAllAppsUnmounted: every registered module has both counts at zero. -/
def isAllAppsUnmounted (m : AppsCounterMap) : Bool :=
  m.all (fun e => e.2.bootstrappingPatchCount == 0 && e.2.mountingPatchCount == 0)

/-- A sequence of counter operations. -/
def applyCalcOps (m : AppsCounterMap) (ops : List (String × CalcType × PatchStatus)) :
    AppsCounterMap :=
  ops.foldl (fun acc o => calcAppCount acc o.1 o.2.1 o.2.2) m

/-! ## Shared prototype patches of the dynamic-append patcher
(forStrictSandbox.ts, patchHTMLDynamicAppendPrototypeFunctions and the free
function of patchStrictSandbox).

A prototype function is either the native one or an overwrite wrapping the
function it replaced; the overwrittenSymbol check of the source is
isOverwritten. Wrapping records what a double installation would look like:
a doubly wrapped function. -/

inductive ProtoFn where
  | raw
  | overwrite (inner : ProtoFn)
deriving DecidableEq, Repr

/-- fn[overwrittenSymbol] === true. -/
def ProtoFn.isOverwritten : ProtoFn → Bool
  | ProtoFn.raw => false
  | ProtoFn.overwrite _ => true

/-- The five prototype methods the patcher overwrites. -/
structure PrototypeFns where
  headAppendChild : ProtoFn
  bodyAppendChild : ProtoFn
  headInsertBefore : ProtoFn
  headRemoveChild : ProtoFn
  bodyRemoveChild : ProtoFn
deriving DecidableEq, Repr

/-- The pristine browser prototypes. -/
def nativePrototypeFns : PrototypeFns :=
  { headAppendChild := ProtoFn.raw
    bodyAppendChild := ProtoFn.raw
    headInsertBefore := ProtoFn.raw
    headRemoveChild := ProtoFn.raw
    bodyRemoveChild := ProtoFn.raw }

/-- Process-wide state seen by the patcher: the prototype methods and the
activation counter registry. -/
structure ProtoPatchState where
  prototypeFns : PrototypeFns
  appsCounterMap : AppsCounterMap
deriving DecidableEq, Repr

/-- patchHTMLDynamicAppendPrototypeFunctions: captures the current prototype
methods, overwrites the append/insert group only when none of them is
already overwritten, then the remove group likewise, and returns the
captured methods (the unpatch closure restores exactly these). -/
def patchHTMLDynamicAppendPrototypeFunctions (st : ProtoPatchState) :
    ProtoPatchState × PrototypeFns :=
  let rawHeadAppendChild := st.prototypeFns.headAppendChild
  let rawBodyAppendChild := st.prototypeFns.bodyAppendChild
  let rawHeadInsertBefore := st.prototypeFns.headInsertBefore
  let st1 :=
    if rawHeadAppendChild.isOverwritten ≠ true ∧ rawBodyAppendChild.isOverwritten ≠ true ∧
        rawHeadInsertBefore.isOverwritten ≠ true then
      { st with prototypeFns := { st.prototypeFns with
          headAppendChild := ProtoFn.overwrite rawHeadAppendChild
          bodyAppendChild := ProtoFn.overwrite rawBodyAppendChild
          headInsertBefore := ProtoFn.overwrite rawHeadInsertBefore } }
    else st
  let rawHeadRemoveChild := st1.prototypeFns.headRemoveChild
  let rawBodyRemoveChild := st1.prototypeFns.bodyRemoveChild
  let st2 :=
    if rawHeadRemoveChild.isOverwritten ≠ true ∧ rawBodyRemoveChild.isOverwritten ≠ true then
      { st1 with prototypeFns := { st1.prototypeFns with
          headRemoveChild := ProtoFn.overwrite rawHeadRemoveChild
          bodyRemoveChild := ProtoFn.overwrite rawBodyRemoveChild } }
    else st1
  (st2, { headAppendChild := rawHeadAppendChild
          bodyAppendChild := rawBodyAppendChild
          headInsertBefore := rawHeadInsertBefore
          headRemoveChild := rawHeadRemoveChild
          bodyRemoveChild := rawBodyRemoveChild })

/-- The unpatch closure returned above: restore the captured methods. -/
def unpatchPrototypeFns (snapshot : PrototypeFns) (st : ProtoPatchState) : ProtoPatchState :=
  { st with prototypeFns := snapshot }

/-- The closure state of the free function returned by patchStrictSandbox,
restricted to the shared prototype machinery. -/
structure StrictSandboxFreer where
  appName : String
  mounting : Bool
  snapshot : PrototypeFns
deriving DecidableEq, Repr

/-- The shared-prototype part of patchStrictSandbox: install the prototype
patches, bump the activation counter for the phase, and return the free
closure. -/
def patchStrictSandboxShared (appName : String) (mounting : Bool) (st : ProtoPatchState) :
    ProtoPatchState × StrictSandboxFreer :=
  let r := patchHTMLDynamicAppendPrototypeFunctions st
  let st1 := r.1
  let snapshot := r.2
  let st2 :=
    if mounting = false then
      { st1 with appsCounterMap :=
          calcAppCount st1.appsCounterMap appName CalcType.increase PatchStatus.bootstrapping }
    else st1
  let st3 :=
    if mounting = true then
      { st2 with appsCounterMap :=
          calcAppCount st2.appsCounterMap appName CalcType.increase PatchStatus.mounting }
    else st2
  (st3, { appName := appName, mounting := mounting, snapshot := snapshot })

/-- The two counter decrements at the head of the free function. -/
def freerDecrement (f : StrictSandboxFreer) (st : ProtoPatchState) : ProtoPatchState :=
  let st1 :=
    if f.mounting = false then
      { st with appsCounterMap :=
          calcAppCount st.appsCounterMap f.appName CalcType.decrease PatchStatus.bootstrapping }
    else st
  if f.mounting = true then
    { st1 with appsCounterMap :=
        calcAppCount st1.appsCounterMap f.appName CalcType.decrease PatchStatus.mounting }
  else st1

/-- The free function: decrement the counter for the phase, and only when
every module has both counters at zero, release the overwritten prototypes
by restoring the methods captured at install time. -/
def runStrictSandboxFreer (f : StrictSandboxFreer) (st : ProtoPatchState) : ProtoPatchState :=
  let st2 := freerDecrement f st
  if isAllAppsUnmounted st2.appsCounterMap then unpatchPrototypeFns f.snapshot st2 else st2

/-- Run a sequence of patcher installations (module name, mounting flag),
discarding the returned free closures. -/
def applySharedPatchCalls (st : ProtoPatchState) (calls : List (String × Bool)) :
    ProtoPatchState :=
  calls.foldl (fun acc c => (patchStrictSandboxShared c.1 c.2 acc).1) st

/-! ## Window event-listener patcher (src/unnamed/part_003, patch).

Raw listeners are identified by numeric ids; the wrapper installed for a
once registration is a distinct function value. realListeners models the
registrations held by the native addEventListener, which deduplicates on
(type, callback identity, capture). -/

abbrev ListenerId := Nat

structure ListenerOptions where
  capture : Bool
  once : Bool
  passive : Bool
deriving DecidableEq, Repr

/-- The raw options argument: missing, a boolean, or an options object. -/
inductive RawOptions where
  | undef
  | flag (b : Bool)
  | options (o : ListenerOptions)
deriving DecidableEq, Repr

/-- normalizeOptions. -/
def normalizeOptions : RawOptions → ListenerOptions
  | RawOptions.options o => o
  | RawOptions.flag b => { capture := b, once := false, passive := false }
  | RawOptions.undef => { capture := false, once := false, passive := false }

/-- A listener function value: a raw listener or the once wrapper built
around one. -/
inductive ListenerFn where
  | raw (id : ListenerId)
  | onceWrapper (id : ListenerId)
deriving DecidableEq, Repr

structure ListenerMapObject where
  listener : ListenerFn
  options : ListenerOptions
  rawListener : ListenerId
deriving DecidableEq, Repr

abbrev ListenerMap := List (String × List ListenerMapObject)

/-- findListenerIndex: match on raw listener identity and capture flag. -/
def findListenerIndex (listeners : List ListenerMapObject) (rawListener : ListenerId)
    (options : ListenerOptions) : Option Nat :=
  listeners.findIdx? (fun item =>
    item.rawListener == rawListener && item.options.capture == options.capture)

/-- removeCacheListener: splice the matching entry out of the cached array
(in place, hence reflected into the map) and return it; when nothing
matches, return a fresh object echoing the arguments. -/
def removeCacheListener (listenerMap : ListenerMap) (type : String)
    (rawListener : ListenerId) (rawOptions : RawOptions) :
    ListenerMapObject × ListenerMap :=
  let options := normalizeOptions rawOptions
  let cachedTypeListeners := (mapGet listenerMap type).getD []
  match findListenerIndex cachedTypeListeners rawListener options with
  | some i =>
    (((cachedTypeListeners.get? i).getD
        { listener := ListenerFn.raw rawListener, options := options, rawListener := rawListener }),
      mapSet listenerMap type (cachedTypeListeners.eraseIdx i))
  | none =>
    ({ listener := ListenerFn.raw rawListener, options := options, rawListener := rawListener },
      listenerMap)

/-- addCacheListener: returns none (and leaves the map untouched) for a
duplicate (rawListener, capture) registration of the same type; otherwise
appends the new entry, wrapping the listener when once is requested. -/
def addCacheListener (listenerMap : ListenerMap) (type : String)
    (rawListener : ListenerId) (rawOptions : RawOptions) :
    Option ListenerMapObject × ListenerMap :=
  let options := normalizeOptions rawOptions
  let cachedTypeListeners := (mapGet listenerMap type).getD []
  match findListenerIndex cachedTypeListeners rawListener options with
  | some _ => (none, listenerMap)
  | none =>
    let listener :=
      if options.once then ListenerFn.onceWrapper rawListener else ListenerFn.raw rawListener
    let cacheListener : ListenerMapObject :=
      { listener := listener, options := options, rawListener := rawListener }
    (some cacheListener, mapSet listenerMap type (cachedTypeListeners ++ [cacheListener]))

/-- State of the patched window: the cache map, the registrations held by
the native listener machinery, and whether the patched functions are
currently installed. -/
structure WindowListenerState where
  listenerMap : ListenerMap
  realListeners : List (String × ListenerFn × Bool)
  patched : Bool
deriving DecidableEq, Repr

/-- The native addEventListener: ignores a registration identical in
(type, callback, capture) to an existing one. -/
def rawAddEventListener (real : List (String × ListenerFn × Bool)) (type : String)
    (fn : ListenerFn) (capture : Bool) : List (String × ListenerFn × Bool) :=
  if real.any (fun e => e.1 == type && e.2.1 == fn && e.2.2 == capture) then real
  else real ++ [(type, fn, capture)]

/-- The native removeEventListener: drops the matching registration. -/
def rawRemoveEventListener (real : List (String × ListenerFn × Bool)) (type : String)
    (fn : ListenerFn) (capture : Bool) : List (String × ListenerFn × Bool) :=
  real.filter (fun e => ¬ (e.1 == type && e.2.1 == fn && e.2.2 == capture))

/-- The patched global.addEventListener. -/
def windowAddEventListener (st : WindowListenerState) (type : String)
    (rawListener : ListenerId) (rawOptions : RawOptions) : WindowListenerState :=
  let r := addCacheListener st.listenerMap type rawListener rawOptions
  match r.1 with
  | none => { st with listenerMap := r.2 }
  | some addListener =>
    { st with
      listenerMap := r.2
      realListeners :=
        rawAddEventListener st.realListeners type addListener.listener
          addListener.options.capture }

/-- The patched global.removeEventListener. -/
def windowRemoveEventListener (st : WindowListenerState) (type : String)
    (rawListener : ListenerId) (rawOptions : RawOptions) : WindowListenerState :=
  let r := removeCacheListener st.listenerMap type rawListener rawOptions
  { st with
    listenerMap := r.2
    realListeners :=
      rawRemoveEventListener st.realListeners type r.1.listener r.1.options.capture }

/-- patch(global): installs the patched functions over a fresh listenerMap. -/
def patchWindowListener (st : WindowListenerState) : WindowListenerState :=
  { st with listenerMap := [], patched := true }

/-- One step of the inner Array.prototype.forEach of free: when index k is
still populated in the live array, remove that entry through the (still
patched) global.removeEventListener, which splices the same array. -/
def freeLoopStep (type : String) (st : WindowListenerState) (k : Nat) : WindowListenerState :=
  let arr := (mapGet st.listenerMap type).getD []
  match arr.get? k with
  | some lmo => windowRemoveEventListener st type lmo.rawListener (RawOptions.options lmo.options)
  | none => st

/-- The inner forEach: the iteration bound is the array length captured when
the loop starts, but each index is checked against the live array. -/
def freeLoopGo (type : String) : Nat → Nat → WindowListenerState → WindowListenerState
  | 0, _, st => st
  | remaining + 1, k, st => freeLoopGo type remaining (k + 1) (freeLoopStep type st k)

/-- One outer iteration of free over a map entry. -/
def freeTypeLoop (st : WindowListenerState) (type : String) : WindowListenerState :=
  let len0 := ((mapGet st.listenerMap type).getD []).length
  freeLoopGo type len0 0 st

/-- free(): walk the cached listeners removing each through the patched
removeEventListener, then clear the map and restore the native functions. -/
def freeWindowListener (st : WindowListenerState) : WindowListenerState :=
  let types := st.listenerMap.map Prod.fst
  let st1 := types.foldl freeTypeLoop st
  { st1 with listenerMap := [], patched := false }

/-! ## CSS scoping engine (src/src/sandbox/patchers/css.ts, class ScopedCSS).

The regular expressions of ruleStyle are implemented as character-level
matchers over List Char:

- rootSelectorRE, two alternatives tried at every position: one character
  outside word, hyphen, dot and hash followed by a root keyword, or a line
  start followed by a root keyword (the source regex carries the m flag);
- rootCombinationRE: the literal html followed by a nonempty greedy run of
  characters outside word, opening brace and opening bracket;
- siblingSelectorRE: the literal html, a nonempty run of characters outside
  word and opening brace, then a plus or tilde (with backtracking);
- the anchored selector matcher that greedily captures everything up to the
  last opening brace;
- the selector splitter with groups (caret or comma with optional newline)
  and a nonempty run of non-comma characters.

The regex objects are declared per ruleStyle call and every g-flagged use
(test followed by replace, or a failing test) leaves lastIndex at zero, so
the matchers are stateless. String replacement substitution patterns with a
dollar sign never occur in the inputs, so replacement strings are inserted
literally. -/

/-- The JS word character class. -/
def isWordChar (c : Char) : Bool :=
  c.isAlphanum || c == '_'

/-- Multiline caret: start of input or right after a line terminator. -/
def isLineStart (s : List Char) (i : Nat) : Bool :=
  i == 0 ||
    (match s.get? (i - 1) with
     | some c => c == '\n' || c == '\r'
     | none => false)

/-- Does the keyword occur at position i. -/
def matchPrefixAt (s : List Char) (i : Nat) (kw : List Char) : Bool :=
  (s.drop i).take kw.length == kw

/-- Match the root keyword alternation body, html or :root at position i,
returning the end position. -/
def matchRootKeywordAt (s : List Char) (i : Nat) : Option Nat :=
  if matchPrefixAt s i "body".data then some (i + 4)
  else if matchPrefixAt s i "html".data then some (i + 4)
  else if matchPrefixAt s i ":root".data then some (i + 5)
  else none

/-- Match rootSelectorRE starting exactly at position i, returning the end
of the whole match (which then starts with the consumed preceding character
when the first alternative fired). -/
def rootSelectorMatchAt (s : List Char) (i : Nat) : Option Nat :=
  match s.get? i with
  | some c =>
    if ¬ (isWordChar c || c == '-' || c == '.' || c == '#') then
      match matchRootKeywordAt s (i + 1) with
      | some e => some e
      | none => if isLineStart s i then matchRootKeywordAt s i else none
    else if isLineStart s i then matchRootKeywordAt s i else none
  | none => if isLineStart s i then matchRootKeywordAt s i else none

/-- Scan for the leftmost rootSelectorRE match at or after position i. -/
def rootSelectorSearch (s : List Char) : Nat → Nat → Option (Nat × Nat)
  | 0, _ => none
  | fuel + 1, i =>
    match rootSelectorMatchAt s i with
    | some e => some (i, e)
    | none => rootSelectorSearch s fuel (i + 1)

/-- The leftmost rootSelectorRE match at or after position i. -/
def rootSelectorFind (s : List Char) (i : Nat) : Option (Nat × Nat) :=
  rootSelectorSearch s (s.length + 1 - i) i

/-- rootSelectorRE.test. -/
def rootSelectorTest (s : List Char) : Bool :=
  (rootSelectorFind s 0).isSome

/-- The slice of s from position a (inclusive) to b (exclusive). -/
def sliceChars (s : List Char) (a b : Nat) : List Char :=
  (s.take b).drop a

/-- Global replace of rootSelectorRE, the replacement computed from the
matched text. Every match is at least four characters long, so the position
advances at each step and the fuel of one more than the length suffices. -/
def rootReplaceGo (s : List Char) (f : List Char → List Char) : Nat → Nat → List Char
  | 0, pos => s.drop pos
  | fuel + 1, pos =>
    match rootSelectorFind s pos with
    | some (j, e) => sliceChars s pos j ++ f (sliceChars s j e) ++ rootReplaceGo s f fuel e
    | none => s.drop pos

/-- String.prototype.replace with the global rootSelectorRE. -/
def rootReplaceAll (s : List Char) (f : List Char → List Char) : List Char :=
  rootReplaceGo s f (s.length + 1) 0

/-- Match rootCombinationRE starting at position i. -/
def rootCombinationMatchAt (s : List Char) (i : Nat) : Option Nat :=
  if matchPrefixAt s i "html".data then
    let run := ((s.drop (i + 4)).takeWhile
      (fun c => ¬ (isWordChar c || c == '\x7b' || c == '['))).length
    if run ≥ 1 then some (i + 4 + run) else none
  else none

/-- rootCombinationRE.test. -/
def rootCombinationTest (s : List Char) : Bool :=
  (List.range (s.length + 1)).any (fun i => (rootCombinationMatchAt s i).isSome)

/-- Scan for the leftmost rootCombinationRE match at or after position i. -/
def rootCombinationSearch (s : List Char) : Nat → Nat → Option (Nat × Nat)
  | 0, _ => none
  | fuel + 1, i =>
    match rootCombinationMatchAt s i with
    | some e => some (i, e)
    | none => rootCombinationSearch s fuel (i + 1)

/-- Global replace of rootCombinationRE by the empty string. -/
def rootCombinationReplaceEmptyGo (s : List Char) : Nat → Nat → List Char
  | 0, pos => s.drop pos
  | fuel + 1, pos =>
    match rootCombinationSearch s (s.length + 1 - pos) pos with
    | some (j, e) => sliceChars s pos j ++ rootCombinationReplaceEmptyGo s fuel e
    | none => s.drop pos

/-- cssText.replace(rootCombinationRE, empty). -/
def rootCombinationReplaceEmpty (s : List Char) : List Char :=
  rootCombinationReplaceEmptyGo s (s.length + 1) 0

/-- Does siblingSelectorRE match starting at position i: the run of
characters outside word and opening brace is greedy but backtracks until a
plus or tilde follows, and the plus and tilde characters themselves belong
to the run class, so a match exists exactly when a plus or tilde occurs
inside the run after at least one run character. -/
def siblingSelectorTestAt (s : List Char) (i : Nat) : Bool :=
  if matchPrefixAt s i "html".data then
    let run := ((s.drop (i + 4)).takeWhile (fun c => ¬ (isWordChar c || c == '\x7b'))).length
    ((s.drop (i + 5)).take (run - 1)).any (fun c => c == '+' || c == '~')
  else false

/-- siblingSelectorRE.test. -/
def siblingSelectorTest (s : List Char) : Bool :=
  (List.range (s.length + 1)).any (fun i => siblingSelectorTestAt s i)

/-- The position of the last opening brace. -/
def lastBraceIndex (s : List Char) : Option Nat :=
  match s.reverse.findIdx? (fun c => c == '\x7b') with
  | some r => some (s.length - 1 - r)
  | none => none

/-- The anchored greedy selector matcher: everything up to and including the
last opening brace, requiring at least one character before it. -/
def outerSelectorReplace (s : List Char) (f : List Char → List Char) : List Char :=
  match lastBraceIndex s with
  | some i => if i ≥ 1 then f (s.take (i + 1)) ++ s.drop (i + 1) else s
  | none => s

/-- The length of the nonempty run of non-comma characters from position i. -/
def nonCommaRun (s : List Char) (i : Nat) : Nat :=
  ((s.drop i).takeWhile (fun c => ¬ c == ',')).length

/-- The selector splitter: global replace of the pattern whose first group
is a caret or a comma with an optional newline and whose second group is a
nonempty run of non-comma characters; f receives the whole match, the first
group and the second group. Unmatched characters are copied through. -/
def innerSplitGo (s : List Char) (f : List Char → List Char → List Char → List Char) :
    Nat → Nat → List Char
  | 0, pos => s.drop pos
  | fuel + 1, pos =>
    if pos = 0 ∧ nonCommaRun s 0 ≥ 1 then
      f (s.take (nonCommaRun s 0)) [] (s.take (nonCommaRun s 0)) ++
        innerSplitGo s f fuel (nonCommaRun s 0)
    else
      match s.get? pos with
      | some c =>
        if c == ',' then
          if s.get? (pos + 1) == some '\n' ∧ nonCommaRun s (pos + 2) ≥ 1 then
            f (sliceChars s pos (pos + 2 + nonCommaRun s (pos + 2)))
                (sliceChars s pos (pos + 2))
                (sliceChars s (pos + 2) (pos + 2 + nonCommaRun s (pos + 2))) ++
              innerSplitGo s f fuel (pos + 2 + nonCommaRun s (pos + 2))
          else if nonCommaRun s (pos + 1) ≥ 1 then
            f (sliceChars s pos (pos + 1 + nonCommaRun s (pos + 1)))
                (sliceChars s pos (pos + 1))
                (sliceChars s (pos + 1) (pos + 1 + nonCommaRun s (pos + 1))) ++
              innerSplitGo s f fuel (pos + 1 + nonCommaRun s (pos + 1))
          else
            c :: innerSplitGo s f fuel (pos + 1)
        else
          c :: innerSplitGo s f fuel (pos + 1)
      | none => []

/-- The per-selector callback of ruleStyle: a selector item containing a
root keyword has the keyword replaced through rootSelectorRE, keeping a
comma or opening parenthesis that the match swallowed; any other item gets
the scope prefix inserted in front, after the captured separator. -/
def innerSelectorCallback (pre : List Char) (item pPart sPart : List Char) : List Char :=
  if rootSelectorTest item then
    rootReplaceAll item (fun m =>
      if m.head? == some ',' || m.head? == some '(' then m.take 1 ++ pre else pre)
  else
    pPart ++ pre ++ ' ' :: sPart.dropWhile (fun c => c == ' ')

/-- JS whitespace for String.prototype.trim. -/
def isJSWhitespace (c : Char) : Bool :=
  c == ' ' || c == '\t' || c == '\n' || c == '\r' || c == '\x0b' || c == '\x0c'

/-- String.prototype.trim at the character level. -/
def trimChars (s : List Char) : List Char :=
  ((s.dropWhile isJSWhitespace).reverse.dropWhile isJSWhitespace).reverse

namespace ScopedCSS

/-- ruleStyle: rules whose whole selector is a root selector have the root
selector replaced by the prefix; otherwise a non-sibling html combination
is stripped and every selector item of the rule text is prefixed. -/
def ruleStyle (selectorText : String) (cssTextIn : String) (pre : String) : String :=
  let selector := trimChars selectorText.data
  let cssText0 := cssTextIn.data
  if selector == "html".data || selector == "body".data || selector == ":root".data then
    (rootReplaceAll cssText0 (fun _ => pre.data)).asString
  else
    let cssText1 :=
      if rootCombinationTest selectorText.data then
        if ¬ siblingSelectorTest selectorText.data then rootCombinationReplaceEmpty cssText0
        else cssText0
      else cssText0
    (outerSelectorReplace cssText1 (fun selectors =>
      innerSplitGo selectors (innerSelectorCallback pre.data) (selectors.length + 1) 0)).asString

end ScopedCSS

/-- A CSS rule as the browser exposes it through cssRules: a style rule with
its selector and serialized text, a media or supports group with nested
rules and its condition, or any other rule kept verbatim. -/
inductive CSSRule where
  | styleRule (selectorText : String) (cssText : String)
  | mediaRule (conditionText : String) (cssRules : List CSSRule)
  | supportsRule (conditionText : String) (cssRules : List CSSRule)
  | otherRule (cssText : String)

mutual

/-- Rewrite one rule: style rules through ruleStyle, media and supports
groups recursively inside their reconstructed header, anything else kept. -/
def rewriteOne (rule : CSSRule) (pre : String) : String :=
  match rule with
  | CSSRule.styleRule sel txt => ScopedCSS.ruleStyle sel txt pre
  | CSSRule.mediaRule cond rules =>
    "@media " ++ cond ++ " \x7b" ++ rewriteRules rules pre ++ "\x7d"
  | CSSRule.supportsRule cond rules =>
    "@supports " ++ cond ++ " \x7b" ++ rewriteRules rules pre ++ "\x7d"
  | CSSRule.otherRule txt => txt

/-- ScopedCSS.rewrite: concatenate the rewritten rules. -/
def rewriteRules (rules : List CSSRule) (pre : String) : String :=
  match rules with
  | [] => ""
  | r :: rest => rewriteOne r pre ++ rewriteRules rest pre

end

/-- A style element: its text content and whether the ModifiedTag property
has been set on it. -/
structure StyleNode where
  textContent : String
  modifiedTag : Bool
deriving DecidableEq, Repr

namespace ScopedCSS

/-- process: an already tagged node is left alone; a node with nonempty
text has its rules (as parsed by the browser from that text, supplied here
as the parseCSS argument) rewritten with the prefix and is tagged; a node
with empty text only gets a MutationObserver registered, with no
synchronous change to the node. -/
def process (parseCSS : String → List CSSRule) (styleNode : StyleNode) (pre : String) :
    StyleNode :=
  if styleNode.modifiedTag then styleNode
  else if styleNode.textContent ≠ "" then
    let rules := parseCSS styleNode.textContent
    let css := rewriteRules rules pre
    { textContent := css, modifiedTag := true }
  else styleNode

end ScopedCSS

/-- The prototype methods after exactly one installation over the native
ones. -/
def onceOverwrittenFns : PrototypeFns :=
  { headAppendChild := ProtoFn.overwrite ProtoFn.raw
    bodyAppendChild := ProtoFn.overwrite ProtoFn.raw
    headInsertBefore := ProtoFn.overwrite ProtoFn.raw
    headRemoveChild := ProtoFn.overwrite ProtoFn.raw
    bodyRemoveChild := ProtoFn.overwrite ProtoFn.raw }

/-- A window after patching on which two distinct listeners for the same
type and capture were registered. -/
def listenerBugScenario : WindowListenerState :=
  windowAddEventListener
    (windowAddEventListener
      (patchWindowListener { listenerMap := [], realListeners := [], patched := false })
      "click" 1 RawOptions.undef)
    "click" 2 RawOptions.undef

/-- The inductive invariant of one legacy-sandbox activation started on the
shared global g0 from a pristine instance. -/
structure LegacyInv (g0 : Global) (s : LegacySandbox) : Prop where
  running : s.sandboxRunning = true
  untouched : ∀ k, mapHas s.addedPropsMapInSandbox k = false →
    mapHas s.modifiedPropsOriginalValueMapInSandbox k = false → s.globalContext k = g0 k
  addedFresh : ∀ k, mapHas s.addedPropsMapInSandbox k = true → g0 k = none
  modifiedOrig : ∀ k v, mapGet s.modifiedPropsOriginalValueMapInSandbox k = some v →
    mapHas s.addedPropsMapInSandbox k = false → g0 k = some v
  touchedPresent : ∀ k, (mapHas s.addedPropsMapInSandbox k = true ∨
    mapHas s.modifiedPropsOriginalValueMapInSandbox k = true) → (s.globalContext k).isSome = true
  addedUnique : keysUnique s.addedPropsMapInSandbox
  modifiedUnique : keysUnique s.modifiedPropsOriginalValueMapInSandbox

/-! ## Lemmas about the association-list map operations -/

theorem mapHas_mapSet {β : Type} (m : List (Key × β)) (k k2 : Key) (v : β) :
    mapHas (mapSet m k v) k2 = if k = k2 then true else mapHas m k2 := by
  induction m with
  | nil => simp [mapSet, mapHas]
  | cons e rest ih =>
    by_cases h1 : e.1 = k
    · subst h1
      by_cases h3 : e.1 = k2 <;> simp [mapSet, mapHas, h3]
    · by_cases h3 : e.1 = k2
      · subst h3
        have hk : ¬ k = e.1 := fun h => h1 h.symm
        simp [mapSet, mapHas, h1, hk]
      · simp [mapSet, mapHas, h1, h3, ih]

theorem mapGet_mapSet {β : Type} (m : List (Key × β)) (k k2 : Key) (v : β) :
    mapGet (mapSet m k v) k2 = if k = k2 then some v else mapGet m k2 := by
  induction m with
  | nil => simp [mapSet, mapGet]
  | cons e rest ih =>
    by_cases h1 : e.1 = k
    · subst h1
      by_cases h3 : e.1 = k2 <;> simp [mapSet, mapGet, h3]
    · by_cases h3 : e.1 = k2
      · subst h3
        have hk : ¬ k = e.1 := fun h => h1 h.symm
        simp [mapSet, mapGet, h1, hk]
      · simp [mapSet, mapGet, h1, h3, ih]

theorem mapGet_eq_none_iff_not_has {β : Type} (m : List (Key × β)) (k : Key) :
    mapGet m k = none ↔ mapHas m k = false := by
  induction m with
  | nil => simp [mapGet, mapHas]
  | cons e rest ih =>
    by_cases h : e.1 = k <;> simp [mapGet, mapHas, h, ih]

theorem keysUnique_mapSet {β : Type} (m : List (Key × β)) (k : Key) (v : β)
    (h : keysUnique m) : keysUnique (mapSet m k v) := by
  induction m with
  | nil => exact ⟨rfl, trivial⟩
  | cons e rest ih =>
    obtain ⟨h1, h2⟩ : mapHas rest e.1 = false ∧ keysUnique rest := h
    by_cases he : e.1 = k
    · subst he
      have hstep : mapSet (e :: rest) e.1 v = (e.1, v) :: rest := by
        simp [mapSet]
      rw [hstep]
      exact ⟨h1, h2⟩
    · have hstep : mapSet (e :: rest) k v = e :: mapSet rest k v := by
        simp [mapSet, he]
      rw [hstep]
      refine ⟨?_, ih h2⟩
      have hk : ¬ k = e.1 := fun h3 => he h3.symm
      rw [mapHas_mapSet, if_neg hk]
      exact h1

/-! ## The lifecycle orchestrator: mount ordering (claim C3) -/

theorem foldl_runRebuilder (l : List Nat) (c : SandboxContainer) :
    l.foldl runRebuilder c = { c with trace := c.trace ++ l.map LifecycleEvent.rebuild } := by
  induction l generalizing c with
  | nil => simp
  | cons a rest ih => simp [runRebuilder, ih]

theorem mount_spec (c : SandboxContainer) (mountingPatches : List Nat) :
    c.mount mountingPatches =
      { bootstrappingFreers := c.bootstrappingFreers
        mountingFreers := mountingPatches
        sideEffectsRebuilders := []
        trace := c.trace ++ [LifecycleEvent.activate]
          ++ (c.sideEffectsRebuilders.take c.bootstrappingFreers.length).map LifecycleEvent.rebuild
          ++ mountingPatches.map LifecycleEvent.installMountingPatch
          ++ (c.sideEffectsRebuilders.drop c.bootstrappingFreers.length).map LifecycleEvent.rebuild } := by
  simp [SandboxContainer.mount, foldl_runRebuilder, List.append_assoc]

/-- C3: mount executes activate, then the replay of the bootstrap-slice of
the rebuilders captured at the previous unmount (in install order), then
the fresh installation of the mount-time patches, then the replay of the
mount-slice, and finally clears the rebuilder list, so that a second mount
without an intervening unmount replays nothing. -/
theorem mount_order_spec (bootstrapPatches mp1 mp2 mp3 : List Nat) :
    (((createSandboxContainer bootstrapPatches).mount mp1).unmount.mount mp2).trace
        = ((createSandboxContainer bootstrapPatches).mount mp1).unmount.trace
          ++ [LifecycleEvent.activate]
          ++ bootstrapPatches.map LifecycleEvent.rebuild
          ++ mp2.map LifecycleEvent.installMountingPatch
          ++ mp1.map LifecycleEvent.rebuild
      ∧ (((createSandboxContainer bootstrapPatches).mount mp1).unmount.mount mp2).sideEffectsRebuilders = []
      ∧ ((((createSandboxContainer bootstrapPatches).mount mp1).unmount.mount mp2).mount mp3).trace
        = (((createSandboxContainer bootstrapPatches).mount mp1).unmount.mount mp2).trace
          ++ [LifecycleEvent.activate] ++ mp3.map LifecycleEvent.installMountingPatch := by
  refine ⟨?_, ?_, ?_⟩ <;>
    simp [mount_spec, SandboxContainer.unmount, createSandboxContainer,
      List.take_left, List.drop_left, List.append_assoc]

/-! ## Activation counters (claims C4 and C5) -/

theorem getAppCount_calcAppCount_other (m : AppsCounterMap) (app app2 : String)
    (ct : CalcType) (st : PatchStatus) (h : app ≠ app2) :
    getAppCount (calcAppCount m app ct st) app2 = getAppCount m app2 := by
  simp [calcAppCount, getAppCount, mapGet_mapSet, h]

theorem getAppCount_calc_inc_boot (m : AppsCounterMap) (app : String) :
    (getAppCount (calcAppCount m app CalcType.increase PatchStatus.bootstrapping)
        app).bootstrappingPatchCount = (getAppCount m app).bootstrappingPatchCount + 1
      ∧ (getAppCount (calcAppCount m app CalcType.increase PatchStatus.bootstrapping)
        app).mountingPatchCount = (getAppCount m app).mountingPatchCount := by
  constructor <;> simp [calcAppCount, getAppCount, mapGet_mapSet]

theorem getAppCount_calc_inc_mount (m : AppsCounterMap) (app : String) :
    (getAppCount (calcAppCount m app CalcType.increase PatchStatus.mounting)
        app).mountingPatchCount = (getAppCount m app).mountingPatchCount + 1
      ∧ (getAppCount (calcAppCount m app CalcType.increase PatchStatus.mounting)
        app).bootstrappingPatchCount = (getAppCount m app).bootstrappingPatchCount := by
  constructor <;> simp [calcAppCount, getAppCount, mapGet_mapSet]

theorem getAppCount_mapSet_self (m : AppsCounterMap) (app : String) (x : AppCount) :
    getAppCount (mapSet m app x) app = x := by
  simp [getAppCount, mapGet_mapSet]

theorem getAppCount_calc_dec_boot (m : AppsCounterMap) (app : String) :
    (getAppCount (calcAppCount m app CalcType.decrease PatchStatus.bootstrapping)
        app).bootstrappingPatchCount =
      (if (getAppCount m app).bootstrappingPatchCount > 0 then
        (getAppCount m app).bootstrappingPatchCount - 1
      else (getAppCount m app).bootstrappingPatchCount)
      ∧ (getAppCount (calcAppCount m app CalcType.decrease PatchStatus.bootstrapping)
        app).mountingPatchCount = (getAppCount m app).mountingPatchCount := by
  constructor <;>
    · simp only [calcAppCount]
      rw [getAppCount_mapSet_self]
      split <;> rfl

theorem getAppCount_calc_dec_mount (m : AppsCounterMap) (app : String) :
    (getAppCount (calcAppCount m app CalcType.decrease PatchStatus.mounting)
        app).mountingPatchCount =
      (if (getAppCount m app).mountingPatchCount > 0 then
        (getAppCount m app).mountingPatchCount - 1
      else (getAppCount m app).mountingPatchCount)
      ∧ (getAppCount (calcAppCount m app CalcType.decrease PatchStatus.mounting)
        app).bootstrappingPatchCount = (getAppCount m app).bootstrappingPatchCount := by
  constructor <;>
    · simp only [calcAppCount]
      rw [getAppCount_mapSet_self]
      split <;> rfl

theorem counts_nonneg_step (m : AppsCounterMap) (app : String) (ct : CalcType)
    (st : PatchStatus)
    (h : ∀ a, 0 ≤ (getAppCount m a).bootstrappingPatchCount ∧
      0 ≤ (getAppCount m a).mountingPatchCount) :
    ∀ a, 0 ≤ (getAppCount (calcAppCount m app ct st) a).bootstrappingPatchCount ∧
      0 ≤ (getAppCount (calcAppCount m app ct st) a).mountingPatchCount := by
  intro a
  by_cases ha : app = a
  · subst ha
    have h2 := h app
    rcases ct <;> rcases st
    · rw [(getAppCount_calc_inc_boot m app).1, (getAppCount_calc_inc_boot m app).2]
      omega
    · rw [(getAppCount_calc_inc_mount m app).1, (getAppCount_calc_inc_mount m app).2]
      omega
    · rw [(getAppCount_calc_dec_boot m app).1, (getAppCount_calc_dec_boot m app).2]
      split <;> omega
    · rw [(getAppCount_calc_dec_mount m app).1, (getAppCount_calc_dec_mount m app).2]
      split <;> omega
  · rw [getAppCount_calcAppCount_other m app a ct st ha]
    exact h a

theorem counts_nonneg_run (ops : List (String × CalcType × PatchStatus))
    (m : AppsCounterMap)
    (h : ∀ a, 0 ≤ (getAppCount m a).bootstrappingPatchCount ∧
      0 ≤ (getAppCount m a).mountingPatchCount) :
    ∀ a, 0 ≤ (getAppCount (applyCalcOps m ops) a).bootstrappingPatchCount ∧
      0 ≤ (getAppCount (applyCalcOps m ops) a).mountingPatchCount := by
  induction ops generalizing m with
  | nil => exact h
  | cons o rest ih =>
    exact ih (calcAppCount m o.1 o.2.1 o.2.2) (counts_nonneg_step m o.1 o.2.1 o.2.2 h)

/-- C5: starting from the empty registry, any sequence of increase and
decrease operations leaves both patch counts of every module non-negative
(every reachable intermediate registry is the final registry of a prefix of
the sequence, so this covers all times); moreover a decrease on a count
already at zero leaves that count at zero. -/
theorem app_counts_nonneg :
    (∀ (ops : List (String × CalcType × PatchStatus)) (app : String),
        0 ≤ (getAppCount (applyCalcOps [] ops) app).bootstrappingPatchCount ∧
        0 ≤ (getAppCount (applyCalcOps [] ops) app).mountingPatchCount)
    ∧ (∀ (m : AppsCounterMap) (app : String),
        (getAppCount m app).bootstrappingPatchCount = 0 →
        (getAppCount (calcAppCount m app CalcType.decrease PatchStatus.bootstrapping)
          app).bootstrappingPatchCount = 0)
    ∧ (∀ (m : AppsCounterMap) (app : String),
        (getAppCount m app).mountingPatchCount = 0 →
        (getAppCount (calcAppCount m app CalcType.decrease PatchStatus.mounting)
          app).mountingPatchCount = 0) := by
  refine ⟨?_, ?_, ?_⟩
  · intro ops app
    refine counts_nonneg_run ops [] ?_ app
    intro a
    simp [getAppCount, mapGet]
  · intro m app h
    rw [(getAppCount_calc_dec_boot m app).1]
    simp [h]
  · intro m app h
    rw [(getAppCount_calc_dec_mount m app).1]
    simp [h]

/-- Witness for C5 at concrete inputs. -/
theorem app_counts_nonneg_witness :
    (0 ≤ (getAppCount (applyCalcOps []
        [("a", CalcType.decrease, PatchStatus.bootstrapping),
         ("a", CalcType.increase, PatchStatus.mounting)]) "a").bootstrappingPatchCount ∧
      0 ≤ (getAppCount (applyCalcOps []
        [("a", CalcType.decrease, PatchStatus.bootstrapping),
         ("a", CalcType.increase, PatchStatus.mounting)]) "a").mountingPatchCount)
    ∧ (getAppCount (calcAppCount [("b", { bootstrappingPatchCount := 0, mountingPatchCount := 3 })]
        "b" CalcType.decrease PatchStatus.bootstrapping) "b").bootstrappingPatchCount = 0 :=
  ⟨app_counts_nonneg.1 _ "a",
   app_counts_nonneg.2.1 [("b", { bootstrappingPatchCount := 0, mountingPatchCount := 3 })] "b"
     (by decide)⟩

/-! ## Shared prototype patches: install at most once, release only when
all counters are zero (claim C4) -/

theorem patchShared_prototypeFns_of_overwritten (st : ProtoPatchState) (app : String)
    (mounting : Bool)
    (h1 : st.prototypeFns.headAppendChild.isOverwritten = true)
    (h2 : st.prototypeFns.headRemoveChild.isOverwritten = true) :
    ((patchStrictSandboxShared app mounting st).1).prototypeFns = st.prototypeFns := by
  simp [patchStrictSandboxShared, patchHTMLDynamicAppendPrototypeFunctions, h1, h2]
  rcases mounting <;> simp

theorem patchShared_prototypeFns_of_native (st : ProtoPatchState) (app : String)
    (mounting : Bool) (h : st.prototypeFns = nativePrototypeFns) :
    ((patchStrictSandboxShared app mounting st).1).prototypeFns = onceOverwrittenFns := by
  simp [patchStrictSandboxShared, patchHTMLDynamicAppendPrototypeFunctions, h,
    nativePrototypeFns, ProtoFn.isOverwritten, onceOverwrittenFns]
  rcases mounting <;> simp

theorem freerDecrement_prototypeFns (f : StrictSandboxFreer) (st : ProtoPatchState) :
    (freerDecrement f st).prototypeFns = st.prototypeFns := by
  rcases hm : f.mounting <;> simp [freerDecrement, hm]

theorem applyCalls_keeps_once (calls : List (String × Bool)) (st : ProtoPatchState)
    (h : st.prototypeFns = onceOverwrittenFns) :
    (applySharedPatchCalls st calls).prototypeFns = onceOverwrittenFns := by
  induction calls generalizing st with
  | nil => exact h
  | cons c rest ih =>
    refine ih _ ?_
    rw [patchShared_prototypeFns_of_overwritten _ c.1 c.2]
    · exact h
    · rw [h]; rfl
    · rw [h]; rfl

/-- C4: the shared prototype patches are installed at most once no matter
how many modules call the patcher (starting from the native prototypes, any
nonempty sequence of installations leaves every method overwritten exactly
once, never doubly wrapped), and a free call changes the prototype methods
only when, after its decrement, every module has both activation counters
at zero. -/
theorem prototype_patch_install_once_and_gated_release :
    (∀ (st : ProtoPatchState) (calls : List (String × Bool)) (app : String) (mounting : Bool),
        st.prototypeFns = nativePrototypeFns →
        (applySharedPatchCalls st ((app, mounting) :: calls)).prototypeFns = onceOverwrittenFns)
    ∧ (∀ (st : ProtoPatchState) (f : StrictSandboxFreer),
        (runStrictSandboxFreer f st).prototypeFns ≠ st.prototypeFns →
        isAllAppsUnmounted (runStrictSandboxFreer f st).appsCounterMap = true) := by
  constructor
  · intro st calls app mounting h
    show (applySharedPatchCalls (patchStrictSandboxShared app mounting st).1 calls).prototypeFns
      = onceOverwrittenFns
    exact applyCalls_keeps_once calls _ (patchShared_prototypeFns_of_native st app mounting h)
  · intro st f h
    simp only [runStrictSandboxFreer] at h ⊢
    by_cases hall : isAllAppsUnmounted (freerDecrement f st).appsCounterMap = true
    · rw [if_pos hall]
      simpa [unpatchPrototypeFns] using hall
    · exfalso
      apply h
      rw [if_neg hall, freerDecrement_prototypeFns]

/-- Witness for C4 at concrete inputs: a second installation on already
overwritten prototypes, and a release that fires exactly when the registry
drops to all-zero. -/
theorem prototype_patch_install_once_and_gated_release_witness :
    (applySharedPatchCalls
        { prototypeFns := nativePrototypeFns, appsCounterMap := [] }
        [("moduleA", false), ("moduleB", true), ("moduleB", false)]).prototypeFns
      = onceOverwrittenFns
    ∧ isAllAppsUnmounted
        (runStrictSandboxFreer
          { appName := "moduleA", mounting := true, snapshot := nativePrototypeFns }
          { prototypeFns := onceOverwrittenFns, appsCounterMap := [] }).appsCounterMap = true :=
  ⟨prototype_patch_install_once_and_gated_release.1
      { prototypeFns := nativePrototypeFns, appsCounterMap := [] }
      [("moduleB", true), ("moduleB", false)] "moduleA" false (by decide),
   prototype_patch_install_once_and_gated_release.2
      { prototypeFns := onceOverwrittenFns, appsCounterMap := [] }
      { appName := "moduleA", mounting := true, snapshot := nativePrototypeFns }
      (by decide)⟩

/-! ## Self-referential keys of the legacy proxy (claim C6) -/

/-- C6: reading any of the four self-referential keys through the sandbox
proxy yields the proxy itself, never a value read from the real shared
global, in every sandbox state. -/
theorem self_referential_keys_resolve_to_proxy (s : LegacySandbox) (p : Key)
    (h : p = "top" ∨ p = "parent" ∨ p = "window" ∨ p = "self") :
    proxyGet s p = GetResult.proxySelf ∧ ∀ v, proxyGet s p ≠ GetResult.value v := by
  constructor
  · simp only [proxyGet, if_pos h]
  · intro v
    simp only [proxyGet, if_pos h]
    intro h2
    exact GetResult.noConfusion h2

/-- Witness for C6 at the key window on a concrete sandbox state. -/
theorem self_referential_keys_resolve_to_proxy_witness :
    proxyGet (LegacySandbox.init "app" (fun _ => none)) "window" = GetResult.proxySelf :=
  (self_referential_keys_resolve_to_proxy (LegacySandbox.init "app" (fun _ => none)) "window"
    (Or.inr (Or.inr (Or.inl rfl)))).1

/-! ## The silent write drop of the inactive sandbox (claim C10) -/

/-- C10: a write through the set trap of a sandbox that is not running
returns true and leaves the whole sandbox state, its bookkeeping maps and
the shared global untouched. -/
theorem set_trap_silent_drop_when_not_running (s : LegacySandbox) (p : Key) (v : JSVal)
    (h : s.sandboxRunning = false) : proxySet s p v = (s, true) := by
  simp [proxySet, setTrap, h]

/-- Witness for C10 on a concrete deactivated sandbox. -/
theorem set_trap_silent_drop_when_not_running_witness :
    proxySet ((LegacySandbox.init "app" (fun _ => none)).inactive) "x" (JSVal.num 1)
      = (((LegacySandbox.init "app" (fun _ => none)).inactive), true) :=
  set_trap_silent_drop_when_not_running _ "x" (JSVal.num 1) (by decide)

/-! ## Event-listener patcher: free leaks listeners when a type has several
registrations (claim C7) -/

/-- C7 failing input: after registering two distinct listeners for the same
type and capture, free removes the cache entries by splicing the very array
its forEach is walking, so the second listener is skipped and stays
registered on the shared global even though the registry is cleared and the
native functions are restored. -/
theorem free_skips_listener_under_concurrent_splice :
    (freeWindowListener listenerBugScenario).realListeners
        = [("click", ListenerFn.raw 2, false)]
      ∧ (freeWindowListener listenerBugScenario).listenerMap = []
      ∧ (freeWindowListener listenerBugScenario).patched = false
      ∧ listenerBugScenario.realListeners
        = [("click", ListenerFn.raw 1, false), ("click", ListenerFn.raw 2, false)] :=
  ⟨by decide, by decide, by decide, by decide⟩

/-! ## CSS scoping (claims C8 and C9) -/

/-- C8: a rule whose selector is exactly the root selector body has the
root selector replaced by the prefix, while an ordinary selector such as
.title is prefixed. -/
theorem root_and_plain_selector_rewrite :
    ScopedCSS.ruleStyle "body" "body \x7b margin: 0; \x7d" "div[data-ns=\"a\"]"
        = "div[data-ns=\"a\"] \x7b margin: 0; \x7d"
      ∧ ScopedCSS.ruleStyle ".title" ".title \x7b color: red; \x7d" "div[data-ns=\"a\"]"
        = "div[data-ns=\"a\"] .title \x7b color: red; \x7d" :=
  ⟨by decide, by decide⟩

/-- C9: once process has rewritten and tagged a style element, a second
process call with any prefix and any parsed rule list returns the element
unchanged, in particular with byte-identical text content. -/
theorem process_idempotent (parse1 parse2 : String → List CSSRule) (pre1 pre2 : String)
    (node : StyleNode) (htag : node.modifiedTag = false) (htext : node.textContent ≠ "") :
    ScopedCSS.process parse2 (ScopedCSS.process parse1 node pre1) pre2
      = ScopedCSS.process parse1 node pre1 := by
  simp [ScopedCSS.process, htag, htext]

/-- Witness for C9 on a concrete style element. -/
theorem process_idempotent_witness :
    ScopedCSS.process (fun _ => [])
        (ScopedCSS.process (fun _ => []) { textContent := "x", modifiedTag := false } "p") "q"
      = ScopedCSS.process (fun _ => []) { textContent := "x", modifiedTag := false } "p" :=
  process_idempotent (fun _ => []) (fun _ => []) "p" "q"
    { textContent := "x", modifiedTag := false } (by decide) (by decide)

/-! ## Legacy sandbox: the diff-restore machinery (claims C1 and C2) -/

theorem setWindowPropG_set (g : Global) (p : Key) (v : JSVal) :
    setWindowPropG g p v false = globalSet g p v := by
  simp [setWindowPropG, isPropConfigurable]

theorem setWindowPropG_delete (g : Global) (p : Key) :
    setWindowPropG g p JSVal.undef true = globalErase g p := by
  simp [setWindowPropG]

theorem restore_foldl (l : List (Key × JSVal)) (s : LegacySandbox) :
    l.foldl (fun acc e => setWindowProp acc e.1 e.2 false) s =
      { s with globalContext :=
          l.foldl (fun acc e => globalSet acc e.1 e.2) s.globalContext } := by
  induction l generalizing s with
  | nil => rfl
  | cons e rest ih =>
    simp only [List.foldl_cons]
    rw [ih]
    simp [setWindowProp, setWindowPropG_set]

theorem delete_foldl (l : List (Key × JSVal)) (s : LegacySandbox) :
    l.foldl (fun acc e => setWindowProp acc e.1 JSVal.undef true) s =
      { s with globalContext :=
          l.foldl (fun acc e => globalErase acc e.1) s.globalContext } := by
  induction l generalizing s with
  | nil => rfl
  | cons e rest ih =>
    simp only [List.foldl_cons]
    rw [ih]
    simp [setWindowProp, setWindowPropG_delete]

theorem foldl_globalSet_eval (l : List (Key × JSVal)) (g : Global) (k : Key)
    (hu : keysUnique l) :
    l.foldl (fun acc e => globalSet acc e.1 e.2) g k =
      (match mapGet l k with
       | some v => some v
       | none => g k) := by
  induction l generalizing g with
  | nil => simp [mapGet]
  | cons e rest ih =>
    obtain ⟨h1, h2⟩ : mapHas rest e.1 = false ∧ keysUnique rest := hu
    simp only [List.foldl_cons]
    rw [ih _ h2]
    by_cases hk : e.1 = k
    · subst hk
      have hnone : mapGet rest e.1 = none := (mapGet_eq_none_iff_not_has rest e.1).2 h1
      rw [hnone]
      simp [mapGet, globalSet]
    · have hmg : mapGet (e :: rest) k = mapGet rest k := by simp [mapGet, hk]
      rw [hmg]
      have hk2 : ¬ k = e.1 := fun h3 => hk h3.symm
      cases hmv : mapGet rest k with
      | some v => rfl
      | none => simp [globalSet, hk2]

theorem foldl_globalErase_eval (l : List (Key × JSVal)) (g : Global) (k : Key) :
    l.foldl (fun acc e => globalErase acc e.1) g k =
      if mapHas l k then none else g k := by
  induction l generalizing g with
  | nil => simp [mapHas]
  | cons e rest ih =>
    simp only [List.foldl_cons]
    rw [ih]
    by_cases hk : e.1 = k
    · subst hk
      simp [mapHas, globalErase]
    · have hk2 : ¬ k = e.1 := fun h3 => hk h3.symm
      simp [mapHas, hk, globalErase, hk2]

theorem inactive_globalContext (s : LegacySandbox)
    (hmu : keysUnique s.modifiedPropsOriginalValueMapInSandbox) (k : Key) :
    (s.inactive).globalContext k =
      if mapHas s.addedPropsMapInSandbox k then none
      else
        match mapGet s.modifiedPropsOriginalValueMapInSandbox k with
        | some v => some v
        | none => s.globalContext k := by
  simp only [LegacySandbox.inactive, restore_foldl, delete_foldl]
  rw [foldl_globalErase_eval]
  by_cases ha : mapHas s.addedPropsMapInSandbox k = true
  · simp [ha]
  · have ha2 : mapHas s.addedPropsMapInSandbox k = false := by
      cases hh : mapHas s.addedPropsMapInSandbox k
      · rfl
      · exact absurd hh ha
    simp only [ha2, if_neg, Bool.false_eq_true, if_false]
    exact foldl_globalSet_eval _ _ k hmu

theorem proxySet_shape (s : LegacySandbox) (p : Key) (v : JSVal)
    (hrun : s.sandboxRunning = true) :
    (proxySet s p v).1 =
      { s with
        addedPropsMapInSandbox :=
          if (s.globalContext p).isSome then s.addedPropsMapInSandbox
          else mapSet s.addedPropsMapInSandbox p v
        modifiedPropsOriginalValueMapInSandbox :=
          if (s.globalContext p).isSome
              ∧ mapHas s.modifiedPropsOriginalValueMapInSandbox p = false then
            mapSet s.modifiedPropsOriginalValueMapInSandbox p (globalRead s.globalContext p)
          else s.modifiedPropsOriginalValueMapInSandbox
        currentUpdatedPropsValueMap := mapSet s.currentUpdatedPropsValueMap p v
        globalContext := globalSet s.globalContext p v
        latestSetProp := some p } := by
  obtain ⟨nm, g, am, mm, cm, run, lsp⟩ := s
  simp only at hrun
  subst hrun
  by_cases hp : (g p).isSome = true
  · by_cases hm : mapHas mm p = true
    · simp [proxySet, setTrap, globalHasOwnProperty, hp, hm]
    · simp [proxySet, setTrap, globalHasOwnProperty, hp, hm]
  · have hp2 : (g p).isSome = false := by
      cases hh : (g p).isSome
      · rfl
      · exact absurd hh hp
    simp [proxySet, setTrap, globalHasOwnProperty, hp2]

theorem proxyDefineProperty_eq_proxySet (s : LegacySandbox) (p : Key) (v : JSVal)
    (hrun : s.sandboxRunning = true) (hp : (s.globalContext p).isSome = true) :
    (proxyDefineProperty s p v).1 = (proxySet s p v).1 := by
  rw [proxySet_shape s p v hrun]
  obtain ⟨nm, g, am, mm, cm, run, lsp⟩ := s
  simp only at hrun hp
  subst hrun
  have hsetp : (globalSet g p v p).isSome = true := by simp [globalSet]
  have hread : globalRead (globalSet g p v) p = v := by simp [globalRead, globalSet]
  by_cases hm : mapHas mm p = true
  · simp [proxyDefineProperty, setTrap, globalHasOwnProperty, hsetp, hread, hm, hp]
  · simp [proxyDefineProperty, setTrap, globalHasOwnProperty, hsetp, hread, hm, hp]

theorem inv_init (name : String) (g0 : Global) :
    LegacyInv g0 (LegacySandbox.init name g0) := by
  refine ⟨rfl, fun k _ _ => rfl, fun k h => ?_, fun k v h _ => ?_, fun k h => ?_,
    trivial, trivial⟩
  · exact absurd h (by simp [LegacySandbox.init, mapHas])
  · exact absurd h (by simp [LegacySandbox.init, mapGet])
  · rcases h with h | h
    · exact absurd h (by simp [LegacySandbox.init, mapHas])
    · exact absurd h (by simp [LegacySandbox.init, mapHas])

theorem proxySet_added (s : LegacySandbox) (p : Key) (v : JSVal)
    (hrun : s.sandboxRunning = true) :
    (proxySet s p v).1.addedPropsMapInSandbox =
      if (s.globalContext p).isSome then s.addedPropsMapInSandbox
      else mapSet s.addedPropsMapInSandbox p v := by
  rw [proxySet_shape s p v hrun]

theorem proxySet_modified (s : LegacySandbox) (p : Key) (v : JSVal)
    (hrun : s.sandboxRunning = true) :
    (proxySet s p v).1.modifiedPropsOriginalValueMapInSandbox =
      if (s.globalContext p).isSome
          ∧ mapHas s.modifiedPropsOriginalValueMapInSandbox p = false then
        mapSet s.modifiedPropsOriginalValueMapInSandbox p (globalRead s.globalContext p)
      else s.modifiedPropsOriginalValueMapInSandbox := by
  rw [proxySet_shape s p v hrun]

theorem proxySet_global (s : LegacySandbox) (p : Key) (v : JSVal)
    (hrun : s.sandboxRunning = true) :
    (proxySet s p v).1.globalContext = globalSet s.globalContext p v := by
  rw [proxySet_shape s p v hrun]

theorem proxySet_running (s : LegacySandbox) (p : Key) (v : JSVal)
    (hrun : s.sandboxRunning = true) :
    (proxySet s p v).1.sandboxRunning = s.sandboxRunning := by
  rw [proxySet_shape s p v hrun]

theorem fresh_key_g0_none (g0 : Global) (s : LegacySandbox) (p : Key)
    (hInv : LegacyInv g0 s) (hp : (s.globalContext p).isSome = false) : g0 p = none := by
  have hpa : mapHas s.addedPropsMapInSandbox p = false := by
    cases hh : mapHas s.addedPropsMapInSandbox p
    · rfl
    · have h2 := hInv.touchedPresent p (Or.inl hh)
      rw [hp] at h2
      exact absurd h2 (by simp)
  have hpm : mapHas s.modifiedPropsOriginalValueMapInSandbox p = false := by
    cases hh : mapHas s.modifiedPropsOriginalValueMapInSandbox p
    · rfl
    · have h2 := hInv.touchedPresent p (Or.inr hh)
      rw [hp] at h2
      exact absurd h2 (by simp)
  have h3 := hInv.untouched p hpa hpm
  rw [← h3]
  cases hg : s.globalContext p
  · rfl
  · rw [hg] at hp
    exact absurd hp (by simp)

theorem inv_proxySet (g0 : Global) (s : LegacySandbox) (p : Key) (v : JSVal)
    (hInv : LegacyInv g0 s) : LegacyInv g0 (proxySet s p v).1 := by
  have hrun := hInv.running
  have hA := proxySet_added s p v hrun
  have hM := proxySet_modified s p v hrun
  have hG := proxySet_global s p v hrun
  have hR := proxySet_running s p v hrun
  have hglobal_at : ∀ k, ¬ k = p →
      (proxySet s p v).1.globalContext k = s.globalContext k := by
    intro k hk
    rw [hG]
    simp [globalSet, hk]
  have hglobal_p : (proxySet s p v).1.globalContext p = some v := by
    rw [hG]
    simp [globalSet]
  refine ⟨by rw [hR]; exact hrun, ?_, ?_, ?_, ?_, ?_, ?_⟩
  · -- untouched keys keep their pre-activation value
    intro k h1 h2
    rw [hA] at h1
    rw [hM] at h2
    by_cases hk : k = p
    · subst hk
      exfalso
      split at h1
      · rename_i hp
        split at h2
        · rw [mapHas_mapSet, if_pos rfl] at h2
          exact absurd h2 (by simp)
        · rename_i hcond
          rcases (not_and_or.mp hcond) with hc | hc
          · exact hc hp
          · cases hh : mapHas s.modifiedPropsOriginalValueMapInSandbox k
            · exact hc hh
            · rw [hh] at h2
              exact absurd h2 (by simp)
      · rw [mapHas_mapSet, if_pos rfl] at h1
        exact absurd h1 (by simp)
    · rw [hglobal_at k hk]
      have h1b : mapHas s.addedPropsMapInSandbox k = false := by
        split at h1
        · exact h1
        · rw [mapHas_mapSet, if_neg (fun h3 => hk h3.symm)] at h1
          exact h1
      have h2b : mapHas s.modifiedPropsOriginalValueMapInSandbox k = false := by
        split at h2
        · rw [mapHas_mapSet, if_neg (fun h3 => hk h3.symm)] at h2
          exact h2
        · exact h2
      exact hInv.untouched k h1b h2b
  · -- added keys were absent from the pre-activation global
    intro k h1
    rw [hA] at h1
    split at h1
    · exact hInv.addedFresh k h1
    · rename_i hp
      rw [mapHas_mapSet] at h1
      by_cases hk : p = k
      · rw [← hk]
        have hp2 : (s.globalContext p).isSome = false := by
          cases hh : (s.globalContext p).isSome
          · rfl
          · exact absurd hh hp
        exact fresh_key_g0_none g0 s p hInv hp2
      · rw [if_neg hk] at h1
        exact hInv.addedFresh k h1
  · -- modified keys not in added record their pre-activation value
    intro k u hget h1
    rw [hM] at hget
    rw [hA] at h1
    have h1b : mapHas s.addedPropsMapInSandbox k = false := by
      split at h1
      · exact h1
      · rw [mapHas_mapSet] at h1
        by_cases hk : p = k
        · rw [if_pos hk] at h1
          exact absurd h1 (by simp)
        · rw [if_neg hk] at h1
          exact h1
    split at hget
    · rename_i hcond
      rw [mapGet_mapSet] at hget
      by_cases hk : p = k
      · rw [if_pos hk] at hget
        subst hk
        obtain ⟨w, hw⟩ := Option.isSome_iff_exists.mp hcond.1
        have hur : globalRead s.globalContext p = w := by simp [globalRead, hw]
        rw [hur] at hget
        have hsg := hInv.untouched p h1b hcond.2
        rw [← hsg, hw]
        exact hget
      · rw [if_neg hk] at hget
        exact hInv.modifiedOrig k u hget h1b
    · exact hInv.modifiedOrig k u hget h1b
  · -- every touched key is an own property of the shared global
    intro k hmem
    by_cases hk : k = p
    · subst hk
      rw [hglobal_p]
      rfl
    · rw [hglobal_at k hk]
      rw [hA, hM] at hmem
      have hmem2 : mapHas s.addedPropsMapInSandbox k = true ∨
          mapHas s.modifiedPropsOriginalValueMapInSandbox k = true := by
        rcases hmem with h | h
        · split at h
          · exact Or.inl h
          · rw [mapHas_mapSet, if_neg (fun h3 => hk h3.symm)] at h
            exact Or.inl h
        · split at h
          · rw [mapHas_mapSet, if_neg (fun h3 => hk h3.symm)] at h
            exact Or.inr h
          · exact Or.inr h
      exact hInv.touchedPresent k hmem2
  · rw [hA]
    split
    · exact hInv.addedUnique
    · exact keysUnique_mapSet _ _ _ hInv.addedUnique
  · rw [hM]
    split
    · exact keysUnique_mapSet _ _ _ hInv.modifiedUnique
    · exact hInv.modifiedUnique

theorem inv_applyOp (g0 : Global) (s : LegacySandbox) (op : SandboxOp)
    (hInv : LegacyInv g0 s) (hsafe : opSafe s op = true) :
    LegacyInv g0 (applyOp s op) := by
  cases op with
  | setProp p v => exact inv_proxySet g0 s p v hInv
  | defineProp p v =>
    have hp : (s.globalContext p).isSome = true := hsafe
    show LegacyInv g0 (proxyDefineProperty s p v).1
    rw [proxyDefineProperty_eq_proxySet s p v hInv.running hp]
    exact inv_proxySet g0 s p v hInv

theorem inv_run (g0 : Global) (ops : List SandboxOp) (s : LegacySandbox)
    (hInv : LegacyInv g0 s) (hsafe : safeOps s ops = true) :
    LegacyInv g0 (applyOps s ops) := by
  induction ops generalizing s with
  | nil => exact hInv
  | cons op rest ih =>
    have hsplit : opSafe s op = true ∧ safeOps (applyOp s op) rest = true := by
      simpa [safeOps, Bool.and_eq_true] using hsafe
    exact ih (applyOp s op) (inv_applyOp g0 s op hInv hsplit.1) hsplit.2

/-- C1 counterexample: a single defineProperty write on a key absent from
the shared global is recorded as modified with captured value undefined, so
after inactive the key survives as an own property holding undefined,
whereas before the first activation it was not an own property at all; the
restored global is not identical to the pre-activation one. -/
theorem legacy_inactive_not_pristine_after_defineProperty :
    ((applyOps (LegacySandbox.init "app" (fun _ => none))
        [SandboxOp.defineProp "k" (JSVal.num 1)]).inactive).globalContext "k"
        = some JSVal.undef
      ∧ (LegacySandbox.init "app" (fun _ => none)).globalContext "k" = none :=
  ⟨by decide, rfl⟩

/-- C1 amended: starting from a pristine legacy sandbox over the shared
global g0, after any sequence of proxy writes in which every defineProperty
targets a key that is an own property at the moment of the write, inactive
restores every modified key to its captured value and deletes every added
key, leaving the shared global pointwise identical to g0. -/
theorem legacy_inactive_restores_pristine_global (name : String) (g0 : Global)
    (ops : List SandboxOp) (k : Key)
    (hsafe : safeOps (LegacySandbox.init name g0) ops = true) :
    ((applyOps (LegacySandbox.init name g0) ops).inactive).globalContext k = g0 k := by
  have hInv := inv_run g0 ops (LegacySandbox.init name g0) (inv_init name g0) hsafe
  rw [inactive_globalContext _ hInv.modifiedUnique k]
  by_cases ha : mapHas (applyOps (LegacySandbox.init name g0)
      ops).addedPropsMapInSandbox k = true
  · rw [if_pos ha]
    exact (hInv.addedFresh k ha).symm
  · rw [if_neg ha]
    have ha2 : mapHas (applyOps (LegacySandbox.init name g0)
        ops).addedPropsMapInSandbox k = false := by
      cases hh : mapHas (applyOps (LegacySandbox.init name g0)
          ops).addedPropsMapInSandbox k
      · rfl
      · exact absurd hh ha
    cases hg : mapGet (applyOps (LegacySandbox.init name g0)
        ops).modifiedPropsOriginalValueMapInSandbox k with
    | some v =>
      simp only [hg]
      exact (hInv.modifiedOrig k v hg ha2).symm
    | none =>
      simp only [hg]
      exact hInv.untouched k ha2 ((mapGet_eq_none_iff_not_has _ k).mp hg)

/-- Witness for the amended C1 on a concrete run mixing assignments and a
property definition on an existing key. -/
theorem legacy_inactive_restores_pristine_global_witness :
    ((applyOps
        (LegacySandbox.init "app"
          (fun k => if k = "a" then some (JSVal.num 5) else none))
        [SandboxOp.setProp "a" (JSVal.num 7), SandboxOp.setProp "b" (JSVal.num 1),
         SandboxOp.defineProp "a" (JSVal.num 9)]).inactive).globalContext "b"
      = (fun k => if k = "a" then some (JSVal.num 5) else none : Global) "b" :=
  legacy_inactive_restores_pristine_global "app"
    (fun k => if k = "a" then some (JSVal.num 5) else none)
    [SandboxOp.setProp "a" (JSVal.num 7), SandboxOp.setProp "b" (JSVal.num 1),
     SandboxOp.defineProp "a" (JSVal.num 9)] "b" (by decide)

/-- C2 counterexample: two successive assignments to a key absent from the
shared global leave the key recorded in both the added map (first write)
and the modified map (second write, because the first one synced the key
onto the raw window), so the two maps are not disjoint. -/
theorem added_modified_not_disjoint :
    mapHas (applyOps (LegacySandbox.init "app" (fun _ => none))
        [SandboxOp.setProp "k" (JSVal.num 1),
         SandboxOp.setProp "k" (JSVal.num 2)]).addedPropsMapInSandbox "k" = true
      ∧ mapHas (applyOps (LegacySandbox.init "app" (fun _ => none))
        [SandboxOp.setProp "k" (JSVal.num 1),
         SandboxOp.setProp "k" (JSVal.num 2)]).modifiedPropsOriginalValueMapInSandbox "k"
        = true :=
  ⟨by decide, by decide⟩

/-- C2 amended: during one activation (with property definitions restricted
to keys already present), the added map only ever holds keys absent from
the pre-activation global, and a key of the modified map that is not also
in the added map is mapped to its exact pre-activation value; disjointness
itself fails exactly when a key created during the activation is written
again, which adds it to the modified map with the interim value as its
recorded original. -/
theorem added_modified_partition_by_preexistence (name : String) (g0 : Global)
    (ops : List SandboxOp) (k : Key) (v : JSVal)
    (hsafe : safeOps (LegacySandbox.init name g0) ops = true) :
    (mapHas (applyOps (LegacySandbox.init name g0) ops).addedPropsMapInSandbox k = true →
        g0 k = none)
      ∧ (mapGet (applyOps (LegacySandbox.init name g0)
            ops).modifiedPropsOriginalValueMapInSandbox k = some v →
          mapHas (applyOps (LegacySandbox.init name g0) ops).addedPropsMapInSandbox k
            = false →
          g0 k = some v) := by
  have hInv := inv_run g0 ops (LegacySandbox.init name g0) (inv_init name g0) hsafe
  exact ⟨hInv.addedFresh k, fun h1 h2 => hInv.modifiedOrig k v h1 h2⟩

/-- Witness for the amended C2 on a concrete run. -/
theorem added_modified_partition_by_preexistence_witness :
    ((fun k => if k = "a" then some (JSVal.num 0) else none : Global) "b" = none)
      ∧ ((fun k => if k = "a" then some (JSVal.num 0) else none : Global) "a"
        = some (JSVal.num 0)) :=
  ⟨(added_modified_partition_by_preexistence "app"
      (fun k => if k = "a" then some (JSVal.num 0) else none)
      [SandboxOp.setProp "a" (JSVal.num 7), SandboxOp.setProp "b" (JSVal.num 1)]
      "b" JSVal.undef (by decide)).1 (by decide),
   (added_modified_partition_by_preexistence "app"
      (fun k => if k = "a" then some (JSVal.num 0) else none)
      [SandboxOp.setProp "a" (JSVal.num 7), SandboxOp.setProp "b" (JSVal.num 1)]
      "a" (JSVal.num 0) (by decide)).2 (by decide) (by decide)⟩

end Qiankun
